import Mathlib

/-!
# PromptPal: HTTP handlers and the login resolver

A shallow embedding of `routes/app.go`, `routes/project.go`, `routes/prompt.go` and
`schema/auth.go`.  A handler is a function from the request context and the world
(store state, project cache, clock, trace of external calls) to the response it
writes and the world it leaves behind.  The early `return`s of the Go code are the
branches of the `match`es, in source order.
-/

set_option autoImplicit false

namespace PromptPal

/-! ## Go values -/

/-- Go `error` values: an `errors.New` style error identified by its text (also used for
the errors reported by gin, the store and the provider), or a `*strconv.NumError`. -/
inductive error where
  | errorString (s : String)
  | NumError (Func : String) (Num : String) (Err : String)
  deriving DecidableEq, Repr

/-- The `error` string of a response body: a string literal of the handler, or the
result of `err.Error()` for the error `err` at hand. -/
inductive Message where
  | text (s : String)
  | Error (err : error)
  deriving DecidableEq, Repr

/-- A `float64`, kept as its bit pattern: the handlers only copy these values. -/
structure float64 where
  bits : Nat
  deriving DecidableEq, Repr

/-- Nanoseconds of `time.Hour`. -/
def Hour : Int := 3600000000000

/-! ## net/http status codes -/

def StatusOK : Int := 200
def StatusBadRequest : Int := 400
def StatusNotFound : Int := 404
def StatusInternalServerError : Int := 500

/-! ## strconv.Atoi -/

def ErrSyntax : String := "invalid syntax"
def ErrRange : String := "value out of range"

/-- The digit loop of `strconv.ParseUint(s, 10, 64)`: a byte that is not a decimal digit
is a syntax error, a value that leaves 64 bits a range error. -/
def parseDigits (s0 : String) : List Char → Nat → Except error Nat
  | [], n => .ok n
  | c :: cs, n =>
    if '0' ≤ c ∧ c ≤ '9' then
      if n ≥ (2 ^ 64 - 1) / 10 + 1 then .error (.NumError "Atoi" s0 ErrRange)
      else
        let n1 := n * 10 + (c.toNat - '0'.toNat)
        if n1 > 2 ^ 64 - 1 then .error (.NumError "Atoi" s0 ErrRange)
        else parseDigits s0 cs n1
    else .error (.NumError "Atoi" s0 ErrSyntax)

/-- The function `strconv.Atoi` on a 64-bit platform: an optional sign, then at least one decimal
digit, the value within the range of `int`. -/
def Atoi (s : String) : Except error Int :=
  match s.toList with
  | [] => .error (.NumError "Atoi" s ErrSyntax)
  | c :: cs =>
    let neg := c = '-'
    let digits := if c = '+' ∨ c = '-' then cs else c :: cs
    match digits with
    | [] => .error (.NumError "Atoi" s ErrSyntax)
    | _ :: _ =>
      match parseDigits s digits 0 with
      | .error err => .error err
      | .ok un =>
        if ¬ neg ∧ un ≥ 2 ^ 63 then .error (.NumError "Atoi" s ErrRange)
        else if neg ∧ un > 2 ^ 63 then .error (.NumError "Atoi" s ErrRange)
        else .ok (if neg then - (un : Int) else (un : Int))

/-! ## gin -/

/-- A `gin.Param`: one URL parameter. -/
structure Param where
  Key : String
  Value : String
  deriving DecidableEq, Repr

/-- The method `gin.Params.Get`: the value of the first parameter with the given key. -/
def Params.Get : List Param → String → Option String
  | [], _ => none
  | p :: ps, name => if p.Key = name then some p.Value else Params.Get ps name

/-- The part of a `*gin.Context` the handlers read: the URL parameters, the outcome of
binding the request (body or query string) to the handler's payload type, and the `uid`
the authentication middleware stored. -/
structure Context (β : Type) where
  Params : List Param
  Bind : Except error β
  uid : Int

/-! ## Entities -/

/-- An `ent.Project` row. -/
structure Project where
  ID : Int
  Name : String
  CreatorID : Int
  Enabled : Bool
  OpenAIBaseURL : String
  OpenAIModel : String
  OpenAIToken : String
  OpenAITemperature : float64
  OpenAITopP : float64
  OpenAIMaxTokens : Int
  deriving DecidableEq, Repr

/-- A `schema.PromptRow`: one message of a template. -/
structure PromptRow where
  Prompt : String
  Role : String
  deriving DecidableEq, Repr

/-- A `schema.PromptVariable`. -/
structure PromptVariable where
  Name : String
  Type_ : String
  deriving DecidableEq, Repr

/-- An `ent.Prompt` row. -/
structure Prompt where
  ID : Int
  Name : String
  Description : String
  CreatorID : Int
  ProjectID : Int
  Prompts : List PromptRow
  Variables : List PromptVariable
  PublicLevel : String
  TokenCount : Int
  deriving DecidableEq, Repr

/-- An `ent.User` row. -/
structure User where
  ID : Int
  Addr : String
  deriving DecidableEq, Repr

/-! ## Store queries, as the handlers build them -/

/-- The predicates on projects the handlers use: `project.IDLT(v)` and `project.ID(v)`. -/
inductive project.Predicate where
  | IDLT (v : Int)
  | ID (v : Int)
  deriving DecidableEq, Repr

/-- The predicates on prompts the handlers use. -/
inductive prompt.Predicate where
  | IDLT (v : Int)
  | IDIn (vs : List Int)
  | HasProjectWith (p : project.Predicate)
  deriving DecidableEq, Repr

/-- The predicates on prompt calls the handlers use. -/
inductive promptcall.Predicate where
  | HasProjectWith (p : project.Predicate)
  | CreateTimeGT (t : Int)
  deriving DecidableEq, Repr

/-- The predicate on users the resolver uses: `user.Addr(v)`. -/
inductive user.Predicate where
  | Addr (v : String)
  deriving DecidableEq, Repr

/-- An order term `ent.Desc(field)`. -/
inductive OrderTerm where
  | Desc (field : String)
  deriving DecidableEq, Repr

/-- The name of the identifier column, `project.FieldID` and `prompt.FieldID`. -/
def FieldID : String := "id"

/-- A query under construction: `Query()` followed by `Where`, `Limit`, `Order`. -/
structure Query (P : Type) where
  predicates : List P
  limit : Option Int
  order : List OrderTerm
  deriving DecidableEq, Repr

def Query.new {P : Type} : Query P := ⟨[], none, []⟩

def Query.Where {P : Type} (q : Query P) (p : P) : Query P :=
  { q with predicates := q.predicates ++ [p] }

def Query.Limit {P : Type} (q : Query P) (n : Int) : Query P :=
  { q with limit := some n }

def Query.Order {P : Type} (q : Query P) (o : OrderTerm) : Query P :=
  { q with order := q.order ++ [o] }

/-- The builder behind `Project.Create()`, with the setters `createProject` calls. -/
structure ProjectCreate where
  Name : String
  OpenAIToken : String
  CreatorID : Int
  deriving DecidableEq, Repr

/-- The builder behind `Project.UpdateOneID(id)`: the fields set so far. -/
structure ProjectUpdateOne where
  id : Int
  Enabled : Option Bool
  OpenAIBaseURL : Option String
  OpenAIModel : Option String
  OpenAIToken : Option String
  OpenAITemperature : Option float64
  OpenAITopP : Option float64
  OpenAIMaxTokens : Option Int
  deriving DecidableEq, Repr

def UpdateOneID (id : Int) : ProjectUpdateOne :=
  ⟨id, none, none, none, none, none, none, none⟩

def ProjectUpdateOne.SetEnabled (u : ProjectUpdateOne) (v : Bool) : ProjectUpdateOne :=
  { u with Enabled := some v }

def ProjectUpdateOne.SetOpenAIBaseURL (u : ProjectUpdateOne) (v : String) : ProjectUpdateOne :=
  { u with OpenAIBaseURL := some v }

def ProjectUpdateOne.SetOpenAIModel (u : ProjectUpdateOne) (v : String) : ProjectUpdateOne :=
  { u with OpenAIModel := some v }

def ProjectUpdateOne.SetOpenAIToken (u : ProjectUpdateOne) (v : String) : ProjectUpdateOne :=
  { u with OpenAIToken := some v }

def ProjectUpdateOne.SetOpenAITemperature (u : ProjectUpdateOne) (v : float64) :
    ProjectUpdateOne :=
  { u with OpenAITemperature := some v }

def ProjectUpdateOne.SetOpenAITopP (u : ProjectUpdateOne) (v : float64) : ProjectUpdateOne :=
  { u with OpenAITopP := some v }

def ProjectUpdateOne.SetOpenAIMaxTokens (u : ProjectUpdateOne) (v : Int) : ProjectUpdateOne :=
  { u with OpenAIMaxTokens := some v }

/-- The builder behind `Prompt.Create()`, with the setters `createPrompt` calls. -/
structure PromptCreate where
  Name : String
  Description : String
  CreatorID : Int
  ProjectID : Int
  Prompts : List PromptRow
  Variables : List PromptVariable
  PublicLevel : String
  TokenCount : Int
  deriving DecidableEq, Repr

/-- One row scanned from the grouped prompt-call query. -/
structure PromptCallCount where
  PromptID : Int
  Count : Int
  deriving DecidableEq, Repr

/-- The operations of `service.EntClient` the handlers use, over a store state `σ`.
Reads return a result or an error; writes also return the new store state. -/
structure EntClient (σ : Type) where
  ProjectQueryAll : σ → Query project.Predicate → Except error (List Project)
  ProjectQueryCount : σ → Query project.Predicate → Except error Int
  ProjectGet : σ → Int → Except error Project
  ProjectCreateSave : σ → ProjectCreate → σ × Except error Project
  ProjectUpdateOneSave : σ → ProjectUpdateOne → σ × Except error Project
  PromptQueryAll : σ → Query prompt.Predicate → Except error (List Prompt)
  PromptQueryCount : σ → Query prompt.Predicate → Except error Int
  PromptGet : σ → Int → Except error Prompt
  PromptCreateSave : σ → PromptCreate → σ × Except error Prompt
  PromptCallGroupScan : σ → Query promptcall.Predicate → Except error (List PromptCallCount)
  UserQueryOnly : σ → Query user.Predicate → Except error User

/-! ## The project cache -/

/-- Modelled from the spec: an entry of the ConfigCache of section 4.3 (the cache library
is not part of the handlers): the key, the cached copy and the instant it expires. -/
structure Item where
  Key : Int
  Value : Project
  Expiration : Int
  deriving DecidableEq, Repr

/-- Modelled from the spec: the ConfigCache of section 4.3, at most one entry per key. -/
structure Cache where
  items : List Item
  deriving DecidableEq, Repr

/-- Modelled from the spec: `Set(projectID, config, ttl)` of section 4.3 at clock reading
`now`; the new entry replaces any entry of the same key and expires at `now + ttl`. -/
def Cache.Set (c : Cache) (now : Int) (k : Int) (v : Project) (ttl : Int) : Cache :=
  ⟨⟨k, v, now + ttl⟩ :: c.items.filter (fun it => it.Key != k)⟩

/-- Modelled from the spec: `Get(projectID)` of section 4.3 at clock reading `now`; expiry
is lazy, an entry past its expiration is a miss. -/
def Cache.Get (c : Cache) (now : Int) (k : Int) : Option Project :=
  match c.items.find? (fun it => it.Key == k) with
  | none => none
  | some it => if now > it.Expiration then none else some it.Value

/-! ## The world of a handler -/

/-- An external call made by a handler. -/
inductive Call where
  | ent
  | cacheSet (key : Int) (value : Project) (ttl : Int)
  | chat (pj : Project)
  deriving DecidableEq, Repr

/-- The state a handler runs in: the store, `service.ProjectCache`, the clock, and the
trace of external calls made so far, newest first. -/
structure World (σ : Type) where
  db : σ
  ProjectCache : Cache
  now : Int
  calls : List Call

def World.logged {σ : Type} (w : World σ) (c : Call) : World σ :=
  { w with calls := c :: w.calls }

/-! ## routes/app.go -/

structure errorResponse where
  ErrorCode : Int
  ErrorMessage : Message
  deriving DecidableEq, Repr

structure ListResponse (α : Type) where
  Count : Int
  Data : List α
  deriving DecidableEq, Repr

/-- The pagination query of the list endpoints. -/
structure queryPagination where
  Limit : Int
  Cursor : Int
  deriving DecidableEq, Repr

structure getTopPromptsMetricOfProjectResponse where
  Prompt : Prompt
  Count : Int
  deriving DecidableEq, Repr

/-- What the provider answers to a chat request. -/
structure ChatCompletionResponse where
  content : String
  deriving DecidableEq, Repr

/-- The values the handlers pass to `c.JSON`. -/
inductive JSON where
  | error (e : errorResponse)
  | project (pj : Project)
  | projects (r : ListResponse Project)
  | prompt (p : Prompt)
  | prompts (r : ListResponse Prompt)
  | topPrompts (r : ListResponse getTopPromptsMetricOfProjectResponse)
  | chat (res : ChatCompletionResponse)
  deriving DecidableEq, Repr

/-- The effect of `c.JSON(status, body)`. -/
structure Response where
  status : Int
  body : JSON
  deriving DecidableEq, Repr

/-- The handler registered with `h.NoRoute`. -/
def NoRoute : Response :=
  ⟨StatusNotFound, .error ⟨StatusNotFound, .text "page not found"⟩⟩

/-! ## routes/project.go -/

def listProjects {σ : Type} (ent : EntClient σ) (c : Context queryPagination) (w : World σ) :
    Response × World σ :=
  match c.Bind with
  | .error err => (⟨StatusBadRequest, .error ⟨StatusBadRequest, .Error err⟩⟩, w)
  | .ok query =>
    match ent.ProjectQueryAll w.db
        (((Query.new.Where (.IDLT query.Cursor)).Limit query.Limit).Order (.Desc FieldID)) with
    | .error err => (⟨StatusNotFound, .error ⟨StatusNotFound, .Error err⟩⟩, w.logged .ent)
    | .ok pjs =>
      match ent.ProjectQueryCount w.db Query.new with
      | .error err =>
        (⟨StatusInternalServerError, .error ⟨StatusInternalServerError, .Error err⟩⟩,
          (w.logged .ent).logged .ent)
      | .ok count => (⟨StatusOK, .projects ⟨count, pjs⟩⟩, (w.logged .ent).logged .ent)

def getProject {σ β : Type} (ent : EntClient σ) (c : Context β) (w : World σ) :
    Response × World σ :=
  match Params.Get c.Params "id" with
  | none => (⟨StatusBadRequest, .error ⟨StatusBadRequest, .text "invalid id"⟩⟩, w)
  | some idStr =>
    match Atoi idStr with
    | .error err =>
      (⟨StatusInternalServerError, .error ⟨StatusInternalServerError, .Error err⟩⟩, w)
    | .ok id =>
      match ent.ProjectGet w.db id with
      | .error err => (⟨StatusNotFound, .error ⟨StatusNotFound, .Error err⟩⟩, w.logged .ent)
      | .ok pj => (⟨StatusOK, .project pj⟩, w.logged .ent)

structure createProjectPayload where
  Name : String
  OpenAIToken : String
  deriving DecidableEq, Repr

def createProject {σ : Type} (ent : EntClient σ) (c : Context createProjectPayload)
    (w : World σ) : Response × World σ :=
  match c.Bind with
  | .error err => (⟨StatusBadRequest, .error ⟨StatusBadRequest, .Error err⟩⟩, w)
  | .ok payload =>
    match ent.ProjectCreateSave w.db ⟨payload.Name, payload.OpenAIToken, c.uid⟩ with
    | (db, .error err) =>
      (⟨StatusInternalServerError, .error ⟨StatusInternalServerError, .Error err⟩⟩,
        { w with db := db, calls := .ent :: w.calls })
    | (db, .ok pj) => (⟨StatusOK, .project pj⟩, { w with db := db, calls := .ent :: w.calls })

/-- The partial update of a project: a nil pointer of the Go struct is `none`. -/
structure updateProjectPayload where
  Enabled : Option Bool
  OpenAIBaseURL : Option String
  OpenAIModel : Option String
  OpenAIToken : Option String
  OpenAITemperature : Option float64
  OpenAITopP : Option float64
  OpenAIMaxTokens : Option Int
  deriving DecidableEq, Repr

/-- The updater `updateProject` builds before saving: `UpdateOneID(pid)`, then one setter
for every field of the payload that is not nil, in the order of the source. -/
def updateProject.updater (pid : Int) (payload : updateProjectPayload) : ProjectUpdateOne :=
  let updater := UpdateOneID pid
  let updater := match payload.Enabled with
    | some v => updater.SetEnabled v
    | none => updater
  let updater := match payload.OpenAIBaseURL with
    | some v => updater.SetOpenAIBaseURL v
    | none => updater
  let updater := match payload.OpenAIModel with
    | some v => updater.SetOpenAIModel v
    | none => updater
  let updater := match payload.OpenAIToken with
    | some v => updater.SetOpenAIToken v
    | none => updater
  let updater := match payload.OpenAITemperature with
    | some v => updater.SetOpenAITemperature v
    | none => updater
  let updater := match payload.OpenAITopP with
    | some v => updater.SetOpenAITopP v
    | none => updater
  let updater := match payload.OpenAIMaxTokens with
    | some v => updater.SetOpenAIMaxTokens v
    | none => updater
  updater

def updateProject {σ : Type} (ent : EntClient σ) (c : Context updateProjectPayload)
    (w : World σ) : Response × World σ :=
  match c.Bind with
  | .error err => (⟨StatusBadRequest, .error ⟨StatusBadRequest, .Error err⟩⟩, w)
  | .ok payload =>
    match Params.Get c.Params "id" with
    | none => (⟨StatusBadRequest, .error ⟨StatusBadRequest, .text "invalid id"⟩⟩, w)
    | some pidStr =>
      match Atoi pidStr with
      | .error err => (⟨StatusBadRequest, .error ⟨StatusBadRequest, .Error err⟩⟩, w)
      | .ok pid =>
        match ent.ProjectUpdateOneSave w.db (updateProject.updater pid payload) with
        | (db, .error err) =>
          (⟨StatusInternalServerError, .error ⟨StatusInternalServerError, .Error err⟩⟩,
            { w with db := db, calls := .ent :: w.calls })
        | (db, .ok pj) =>
          (⟨StatusOK, .project pj⟩,
            { db := db
              ProjectCache := w.ProjectCache.Set w.now pj.ID pj (Hour * 24)
              now := w.now
              calls := .cacheSet pj.ID pj (Hour * 24) :: .ent :: w.calls })

/-- The inner loop of `getTopPromptsMetricOfProject`: the count of the first aggregate row
of the prompt, `0` when the loop ends without a `break`. -/
def getTopPromptsMetricOfProject.count (pc : List PromptCallCount) (id : Int) : Int :=
  match pc with
  | [] => 0
  | r :: rest =>
    if r.PromptID = id then r.Count else getTopPromptsMetricOfProject.count rest id

def getTopPromptsMetricOfProject {σ β : Type} (ent : EntClient σ) (c : Context β)
    (w : World σ) : Response × World σ :=
  match Params.Get c.Params "id" with
  | none => (⟨StatusBadRequest, .error ⟨StatusBadRequest, .text "invalid id"⟩⟩, w)
  | some pidStr =>
    match Atoi pidStr with
    | .error err =>
      (⟨StatusInternalServerError, .error ⟨StatusInternalServerError, .Error err⟩⟩, w)
    | .ok pid =>
      match ent.PromptCallGroupScan w.db
          (((Query.new.Where (.HasProjectWith (.ID pid))).Where
            (.CreateTimeGT (w.now + (-24 * 7 * Hour)))).Limit 5) with
      | .error err =>
        (⟨StatusInternalServerError, .error ⟨StatusInternalServerError, .Error err⟩⟩,
          w.logged .ent)
      | .ok pc =>
        let pidList := pc.map (fun p => p.PromptID)
        match ent.PromptQueryAll w.db (Query.new.Where (.IDIn pidList)) with
        | .error err =>
          (⟨StatusInternalServerError, .error ⟨StatusInternalServerError, .Error err⟩⟩,
            (w.logged .ent).logged .ent)
        | .ok prompts =>
          let result : List getTopPromptsMetricOfProjectResponse :=
            prompts.map (fun p => ⟨p, getTopPromptsMetricOfProject.count pc p.ID⟩)
          (⟨StatusOK, .topPrompts ⟨(result.length : Int), result⟩⟩,
            (w.logged .ent).logged .ent)

/-! ## routes/prompt.go -/

def listProjectPrompts {σ : Type} (ent : EntClient σ) (c : Context queryPagination)
    (w : World σ) : Response × World σ :=
  match c.Bind with
  | .error err => (⟨StatusBadRequest, .error ⟨StatusBadRequest, .Error err⟩⟩, w)
  | .ok payload =>
    match Params.Get c.Params "id" with
    | none =>
      (⟨StatusBadRequest, .error ⟨StatusBadRequest, .text "invalid project id"⟩⟩, w)
    | some idStr =>
      match Atoi idStr with
      | .error err =>
        (⟨StatusInternalServerError, .error ⟨StatusInternalServerError, .Error err⟩⟩, w)
      | .ok pid =>
        match ent.PromptQueryAll w.db
            ((((Query.new.Where (.HasProjectWith (.ID pid))).Where (.IDLT payload.Cursor)).Limit
              payload.Limit).Order (.Desc FieldID)) with
        | .error err => (⟨StatusNotFound, .error ⟨StatusNotFound, .Error err⟩⟩, w.logged .ent)
        | .ok prompts =>
          match ent.PromptQueryCount w.db (Query.new.Where (.HasProjectWith (.ID pid))) with
          | .error err =>
            (⟨StatusInternalServerError, .error ⟨StatusInternalServerError, .Error err⟩⟩,
              (w.logged .ent).logged .ent)
          | .ok count => (⟨StatusOK, .prompts ⟨count, prompts⟩⟩, (w.logged .ent).logged .ent)

def listPrompts {σ : Type} (ent : EntClient σ) (c : Context queryPagination) (w : World σ) :
    Response × World σ :=
  match c.Bind with
  | .error err => (⟨StatusBadRequest, .error ⟨StatusBadRequest, .Error err⟩⟩, w)
  | .ok payload =>
    match ent.PromptQueryAll w.db
        (((Query.new.Where (.IDLT payload.Cursor)).Limit payload.Limit).Order
          (.Desc FieldID)) with
    | .error err => (⟨StatusNotFound, .error ⟨StatusNotFound, .Error err⟩⟩, w.logged .ent)
    | .ok prompts =>
      match ent.PromptQueryCount w.db Query.new with
      | .error err =>
        (⟨StatusInternalServerError, .error ⟨StatusInternalServerError, .Error err⟩⟩,
          (w.logged .ent).logged .ent)
      | .ok count => (⟨StatusOK, .prompts ⟨count, prompts⟩⟩, (w.logged .ent).logged .ent)

def getPrompt {σ β : Type} (ent : EntClient σ) (c : Context β) (w : World σ) :
    Response × World σ :=
  match Params.Get c.Params "id" with
  | none => (⟨StatusBadRequest, .error ⟨StatusBadRequest, .text "invalid id"⟩⟩, w)
  | some idStr =>
    match Atoi idStr with
    | .error err =>
      (⟨StatusInternalServerError, .error ⟨StatusInternalServerError, .Error err⟩⟩, w)
    | .ok id =>
      match ent.PromptGet w.db id with
      | .error err => (⟨StatusNotFound, .error ⟨StatusNotFound, .Error err⟩⟩, w.logged .ent)
      | .ok prompt => (⟨StatusOK, .prompt prompt⟩, w.logged .ent)

structure createPromptPayload where
  ProjectID : Int
  Name : String
  Description : String
  TokenCount : Int
  Prompts : List PromptRow
  Variables : List PromptVariable
  PublicLevel : String
  deriving DecidableEq, Repr

def createPrompt {σ : Type} (ent : EntClient σ) (c : Context createPromptPayload)
    (w : World σ) : Response × World σ :=
  match c.Bind with
  | .error err => (⟨StatusBadRequest, .error ⟨StatusBadRequest, .Error err⟩⟩, w)
  | .ok payload =>
    match ent.PromptCreateSave w.db
        { Name := payload.Name
          Description := payload.Description
          CreatorID := c.uid
          ProjectID := payload.ProjectID
          Prompts := payload.Prompts
          Variables := payload.Variables
          PublicLevel := payload.PublicLevel
          TokenCount := payload.TokenCount } with
    | (db, .error err) =>
      (⟨StatusInternalServerError, .error ⟨StatusInternalServerError, .Error err⟩⟩,
        { w with db := db, calls := .ent :: w.calls })
    | (db, .ok p) => (⟨StatusOK, .prompt p⟩, { w with db := db, calls := .ent :: w.calls })

/-- The provider service `openAIService`: `Chat` sends the rows and variables to the
provider configured by the project and returns its answer or an error. -/
structure OpenAIService where
  Chat : Project → List PromptRow → List PromptVariable → Except error ChatCompletionResponse

def testPrompt {σ : Type} (ent : EntClient σ) (openAIService : OpenAIService)
    (c : Context createPromptPayload) (w : World σ) : Response × World σ :=
  match c.Bind with
  | .error err => (⟨StatusBadRequest, .error ⟨StatusBadRequest, .Error err⟩⟩, w)
  | .ok payload =>
    match ent.ProjectGet w.db payload.ProjectID with
    | .error err => (⟨StatusNotFound, .error ⟨StatusNotFound, .Error err⟩⟩, w.logged .ent)
    | .ok pj =>
      match openAIService.Chat pj payload.Prompts payload.Variables with
      | .error err =>
        (⟨StatusInternalServerError, .error ⟨StatusInternalServerError, .Error err⟩⟩,
          (w.logged .ent).logged (.chat pj))
      | .ok res => (⟨StatusOK, .chat res⟩, (w.logged .ent).logged (.chat pj))

/-- A request, by the handler of `routes` that serves it. -/
inductive Request where
  | NoRoute
  | listProjects (c : Context queryPagination)
  | getProject (c : Context Unit)
  | createProject (c : Context createProjectPayload)
  | updateProject (c : Context updateProjectPayload)
  | getTopPromptsMetricOfProject (c : Context Unit)
  | listProjectPrompts (c : Context queryPagination)
  | listPrompts (c : Context queryPagination)
  | getPrompt (c : Context Unit)
  | createPrompt (c : Context createPromptPayload)
  | testPrompt (c : Context createPromptPayload)

/-- The response of the handler that serves the request. -/
def serve {σ : Type} (ent : EntClient σ) (openAIService : OpenAIService) :
    Request → World σ → Response × World σ
  | .NoRoute, w => (NoRoute, w)
  | .listProjects c, w => listProjects ent c w
  | .getProject c, w => getProject ent c w
  | .createProject c, w => createProject ent c w
  | .updateProject c, w => updateProject ent c w
  | .getTopPromptsMetricOfProject c, w => getTopPromptsMetricOfProject ent c w
  | .listProjectPrompts c, w => listProjectPrompts ent c w
  | .listPrompts c, w => listPrompts ent c w
  | .getPrompt c, w => getPrompt ent c w
  | .createPrompt c, w => createPrompt ent c w
  | .testPrompt c, w => testPrompt ent openAIService c w

/-- Whether the request is served by `updateProject`. -/
def Request.isUpdateProject : Request → Bool
  | .updateProject _ => true
  | _ => false

/-- The world after the requests have been served one after the other. -/
def serveAll {σ : Type} (ent : EntClient σ) (openAIService : OpenAIService) :
    List Request → World σ → World σ
  | [], w => w
  | r :: rs, w => serveAll ent openAIService rs (serve ent openAIService r w).2

/-! ## schema/auth.go -/

structure authAuthData where
  Address : String
  Signature : String
  Message : String
  deriving DecidableEq, Repr

structure authInput where
  Auth : authAuthData
  deriving DecidableEq, Repr

/-- The resolver result; `u` is a pointer, `none` is nil. -/
structure authResponse where
  token : String
  u : Option User
  deriving DecidableEq, Repr

/-- Modelled from the spec: the error `NewGraphQLHttpError(status, err)` builds (the
constructor is declared outside the resolver file): an error that carries the HTTP
status of the error body of section 6 together with the error it wraps. -/
structure GraphQLHttpError where
  code : Int
  err : error
  deriving DecidableEq, Repr

def NewGraphQLHttpError (code : Int) (err : error) : GraphQLHttpError := ⟨code, err⟩

/-- The services the resolver calls: `web3Service.VerifySignature(address, message,
signature)`, `service.SignJWT(user, lifetime)` and `strings.ToLower`. -/
structure AuthServices where
  VerifySignature : String → String → String → Bool × Option error
  SignJWT : User → Int → Except error String
  ToLower : String → String

/-- The resolver `QueryResolver.Auth`: the named results `(result, err)` start at their
zero values and every `return` is bare. -/
def Auth {σ : Type} (svc : AuthServices) (ent : EntClient σ) (db : σ) (args : authInput) :
    authResponse × Option GraphQLHttpError :=
  let result : authResponse := ⟨"", none⟩
  let payload := args.Auth
  match svc.VerifySignature payload.Address payload.Message payload.Signature with
  | (_, some err) => (result, some (NewGraphQLHttpError StatusBadRequest err))
  | (verified, none) =>
    if ¬ verified then
      (result, some (NewGraphQLHttpError StatusBadRequest (.errorString "invalid signature")))
    else
      match ent.UserQueryOnly db (Query.new.Where (.Addr (svc.ToLower payload.Address))) with
      | .error err => (result, some (NewGraphQLHttpError StatusNotFound err))
      | .ok u =>
        match svc.SignJWT u (Hour * 24 * 30) with
        | .error err => (result, some (NewGraphQLHttpError StatusInternalServerError err))
        | .ok token => ({ result with token := token, u := some u }, none)

def authResponse.Token (a : authResponse) : String := a.token

/-! ## The durable store

The handlers reach the store through the generated client only.  The model below gives
the client operations their meaning on tables held as lists of rows. -/

/-- An `ent.PromptCall` row: one recorded execution of a prompt. -/
structure PromptCall where
  ID : Int
  PromptID : Int
  ProjectID : Int
  CreateTime : Int
  deriving DecidableEq, Repr

/-- Modelled from the spec: the durable relational store of section 1 (the generated
client and the database are not part of the handlers).  The tables; `unavailable`, the
error every operation fails with while the store cannot be reached; `negativeLimit`, what
the database does with a negative `LIMIT` (rejects it with this error, or treats it as no
limit); and the column defaults of a new project. -/
structure DB where
  projects : List Project
  prompts : List Prompt
  promptCalls : List PromptCall
  users : List User
  unavailable : Option error
  negativeLimit : Option error
  projectDefaults : Project

/-- Insertion into a list ordered by descending key. -/
def insertDesc {α : Type} (key : α → Int) (a : α) : List α → List α
  | [] => [a]
  | b :: l => if key b ≤ key a then a :: b :: l else b :: insertDesc key a l

/-- Rows ordered by descending key. -/
def sortDesc {α : Type} (key : α → Int) : List α → List α
  | [] => []
  | a :: l => insertDesc key a (sortDesc key l)

/-- Modelled from the spec: `Order(ent.Desc(FieldID))`, "ordered by descending identifier"
(section 6); without an order term the rows come in table order. -/
def applyOrder {α : Type} (key : α → Int) : List OrderTerm → List α → List α
  | [], rows => rows
  | .Desc field :: _, rows => if field = FieldID then sortDesc key rows else rows

/-- Modelled from the spec: `Limit(n)`.  A positive limit keeps at most `n` rows from the
front of the result; the generated client leaves a limit of 0 out of the query, so every
row is returned; a negative limit is handed to the database as it is. -/
def applyLimit {α : Type} (negativeLimit : Option error) :
    Option Int → List α → Except error (List α)
  | none, rows => .ok rows
  | some n, rows =>
    if n = 0 then .ok rows
    else if 0 < n then .ok (rows.take n.toNat)
    else match negativeLimit with
      | some e => .error e
      | none => .ok rows

/-- Modelled from the spec: `All` on a query: the rows that satisfy every predicate, in
the requested order, cut to the requested limit. -/
def DB.select {α P : Type} (db : DB) (key : α → Int) (holds : P → α → Bool)
    (rows : List α) (q : Query P) : Except error (List α) :=
  match db.unavailable with
  | some e => .error e
  | none =>
    applyLimit db.negativeLimit q.limit
      (applyOrder key q.order (rows.filter (fun r => q.predicates.all (fun p => holds p r))))

def project.Predicate.holds : project.Predicate → Project → Bool
  | .IDLT v, pj => decide (pj.ID < v)
  | .ID v, pj => decide (pj.ID = v)

/-- The project edge of a row holds a project predicate when the project the row
belongs to exists and satisfies it. -/
def DB.hasProjectWith (db : DB) (p : project.Predicate) (projectID : Int) : Bool :=
  db.projects.any (fun pj => decide (pj.ID = projectID) && p.holds pj)

def prompt.Predicate.holds (db : DB) : prompt.Predicate → Prompt → Bool
  | .IDLT v, p => decide (p.ID < v)
  | .IDIn vs, p => decide (p.ID ∈ vs)
  | .HasProjectWith q, p => db.hasProjectWith q p.ProjectID

def promptcall.Predicate.holds (db : DB) : promptcall.Predicate → PromptCall → Bool
  | .HasProjectWith q, pc => db.hasProjectWith q pc.ProjectID
  | .CreateTimeGT t, pc => decide (pc.CreateTime > t)

def user.Predicate.holds : user.Predicate → User → Bool
  | .Addr v, u => decide (u.Addr = v)

def DB.ProjectQueryAll (db : DB) (q : Query project.Predicate) : Except error (List Project) :=
  db.select (fun pj => pj.ID) project.Predicate.holds db.projects q

def DB.ProjectQueryCount (db : DB) (q : Query project.Predicate) : Except error Int :=
  match db.ProjectQueryAll q with
  | .error e => .error e
  | .ok rows => .ok (rows.length : Int)

/-- Modelled from the spec: `Get(id)`, the row of that identifier or a not-found error. -/
def DB.ProjectGet (db : DB) (id : Int) : Except error Project :=
  match db.unavailable with
  | some e => .error e
  | none =>
    match db.projects.find? (fun pj => pj.ID == id) with
    | none => .error (.errorString "ent: project not found")
    | some pj => .ok pj

/-- The identifier the store gives the next row of a table. -/
def nextID (ids : List Int) : Int := ids.foldl max 0 + 1

def DB.ProjectCreateSave (db : DB) (b : ProjectCreate) : DB × Except error Project :=
  match db.unavailable with
  | some e => (db, .error e)
  | none =>
    let pj : Project :=
      { db.projectDefaults with
        ID := nextID (db.projects.map (fun r => r.ID))
        Name := b.Name
        OpenAIToken := b.OpenAIToken
        CreatorID := b.CreatorID }
    ({ db with projects := db.projects ++ [pj] }, .ok pj)

/-- The row after an update: a field the updater has set takes the new value, every other
field keeps the stored one. -/
def ProjectUpdateOne.apply (u : ProjectUpdateOne) (pj : Project) : Project :=
  { pj with
    Enabled := u.Enabled.getD pj.Enabled
    OpenAIBaseURL := u.OpenAIBaseURL.getD pj.OpenAIBaseURL
    OpenAIModel := u.OpenAIModel.getD pj.OpenAIModel
    OpenAIToken := u.OpenAIToken.getD pj.OpenAIToken
    OpenAITemperature := u.OpenAITemperature.getD pj.OpenAITemperature
    OpenAITopP := u.OpenAITopP.getD pj.OpenAITopP
    OpenAIMaxTokens := u.OpenAIMaxTokens.getD pj.OpenAIMaxTokens }

/-- Modelled from the spec: `Save` on an `UpdateOneID(id)` updater, the durable write of
section 4.3: the row of that identifier is replaced by the updated row, which is
returned; without such a row the save fails and the table is unchanged. -/
def DB.ProjectUpdateOneSave (db : DB) (u : ProjectUpdateOne) : DB × Except error Project :=
  match db.unavailable with
  | some e => (db, .error e)
  | none =>
    match db.projects.find? (fun pj => pj.ID == u.id) with
    | none => (db, .error (.errorString "ent: project not found"))
    | some old =>
      let pj := u.apply old
      ({ db with projects := db.projects.map (fun r => if r.ID = u.id then pj else r) },
        .ok pj)

def DB.PromptQueryAll (db : DB) (q : Query prompt.Predicate) : Except error (List Prompt) :=
  db.select (fun p => p.ID) (prompt.Predicate.holds db) db.prompts q

def DB.PromptQueryCount (db : DB) (q : Query prompt.Predicate) : Except error Int :=
  match db.PromptQueryAll q with
  | .error e => .error e
  | .ok rows => .ok (rows.length : Int)

def DB.PromptGet (db : DB) (id : Int) : Except error Prompt :=
  match db.unavailable with
  | some e => .error e
  | none =>
    match db.prompts.find? (fun p => p.ID == id) with
    | none => .error (.errorString "ent: prompt not found")
    | some p => .ok p

def DB.PromptCreateSave (db : DB) (b : PromptCreate) : DB × Except error Prompt :=
  match db.unavailable with
  | some e => (db, .error e)
  | none =>
    let p : Prompt :=
      { ID := nextID (db.prompts.map (fun r => r.ID))
        Name := b.Name
        Description := b.Description
        CreatorID := b.CreatorID
        ProjectID := b.ProjectID
        Prompts := b.Prompts
        Variables := b.Variables
        PublicLevel := b.PublicLevel
        TokenCount := b.TokenCount }
    ({ db with prompts := db.prompts ++ [p] }, .ok p)

/-- The groups of `GroupBy("prompt_calls").Aggregate(ent.Count())`: one row per prompt,
with the number of its calls. -/
def groupCount (ids : List Int) : List PromptCallCount :=
  ids.dedup.map (fun id => ⟨id, (ids.count id : Int)⟩)

def DB.PromptCallGroupScan (db : DB) (q : Query promptcall.Predicate) :
    Except error (List PromptCallCount) :=
  match db.unavailable with
  | some e => .error e
  | none =>
    applyLimit db.negativeLimit q.limit
      (groupCount ((db.promptCalls.filter
        (fun r => q.predicates.all (fun p => p.holds db r))).map (fun r => r.PromptID)))

/-- Modelled from the spec: `Only`, the single row of the query; no row and more than one
row are errors. -/
def DB.UserQueryOnly (db : DB) (q : Query user.Predicate) : Except error User :=
  match db.unavailable with
  | some e => .error e
  | none =>
    match db.users.filter (fun u => q.predicates.all (fun p => p.holds u)) with
    | [] => .error (.errorString "ent: user not found")
    | [u] => .ok u
    | _ :: _ :: _ => .error (.errorString "ent: user not singular")

/-- The client `service.EntClient` over the modelled store. -/
def memStore : EntClient DB where
  ProjectQueryAll := DB.ProjectQueryAll
  ProjectQueryCount := DB.ProjectQueryCount
  ProjectGet := DB.ProjectGet
  ProjectCreateSave := DB.ProjectCreateSave
  ProjectUpdateOneSave := DB.ProjectUpdateOneSave
  PromptQueryAll := DB.PromptQueryAll
  PromptQueryCount := DB.PromptQueryCount
  PromptGet := DB.PromptGet
  PromptCreateSave := DB.PromptCreateSave
  PromptCallGroupScan := DB.PromptCallGroupScan
  UserQueryOnly := DB.UserQueryOnly

/-! ## Concrete requests and store states used in the examples -/

def project42 : Project :=
  { ID := 42, Name := "demo", CreatorID := 1, Enabled := false,
    OpenAIBaseURL := "https://api.openai.com/v1", OpenAIModel := "gpt-3.5-turbo",
    OpenAIToken := "sk-1", OpenAITemperature := ⟨0⟩, OpenAITopP := ⟨0⟩,
    OpenAIMaxTokens := 256 }

def project7 : Project :=
  { project42 with ID := 7, Name := "seven", Enabled := true }

def prompt3 : Prompt :=
  { ID := 3, Name := "greet", Description := "", CreatorID := 1, ProjectID := 7,
    Prompts := [⟨"Hello, world", "user"⟩], Variables := [⟨"name", "string"⟩],
    PublicLevel := "private", TokenCount := 4 }

def prompt5 : Prompt := { prompt3 with ID := 5, Name := "bye" }

def prompt9 : Prompt := { prompt3 with ID := 9, Name := "ask", ProjectID := 42 }

def db0 : DB :=
  { projects := [project7, project42]
    prompts := [prompt3, prompt9, prompt5]
    promptCalls := [⟨1, 5, 7, 100⟩, ⟨2, 3, 7, 101⟩, ⟨3, 5, 7, 102⟩]
    users := [⟨1, "0xabc"⟩]
    unavailable := none
    negativeLimit := none
    projectDefaults := project42 }

def world0 : World DB :=
  { db := db0, ProjectCache := ⟨[⟨7, project7, 50⟩]⟩, now := 1000, calls := [] }

/-- The store of `db0` while it cannot be reached. -/
def worldDown : World DB :=
  { world0 with db := { db0 with unavailable := some (.errorString "connection refused") } }

def noPayload : updateProjectPayload := ⟨none, none, none, none, none, none, none⟩

/-- A provider that answers every chat. -/
def echoService : OpenAIService := ⟨fun _ _ _ => .ok ⟨"hi"⟩⟩

/-- A provider service that refuses every chat. -/
def refusingService : OpenAIService :=
  ⟨fun _ _ _ => .error (.errorString "project disabled")⟩

/-- A prompt test under the disabled project 42. -/
def testPayload : createPromptPayload :=
  { ProjectID := 42, Name := "t", Description := "", TokenCount := 0,
    Prompts := [⟨"Hello", "user"⟩], Variables := [], PublicLevel := "private" }

/-- Login services for the examples: a signature is well formed when it is not empty and
matches when it is the address behind the text `sig:`; signing fails for user 13 only. -/
def authServices0 : AuthServices :=
  { VerifySignature := fun address _ signature =>
      if signature = "" then (false, some (.errorString "invalid signature length"))
      else (decide (signature = "sig:" ++ address), none)
    SignJWT := fun u ttl =>
      if u.ID = 13 then .error (.errorString "missing key")
      else .ok (if ttl = 2592000000000000 then "jwt30d:" ++ u.Addr else "jwt:" ++ u.Addr)
    ToLower := fun s => String.mk (s.data.map Char.toLower) }

def loginKnown : authInput := ⟨⟨"0xABC", "sig:0xABC", "login:nonce123"⟩⟩

def loginUnknown : authInput := ⟨⟨"0xDEF", "sig:0xDEF", "login:nonce123"⟩⟩

/-! ## Theorems -/

/-- C7: every failing response of the handlers of `routes` (the NoRoute handler,
listProjects, getProject, createProject, updateProject, getTopPromptsMetricOfProject,
listProjectPrompts, listPrompts, getPrompt, createPrompt, testPrompt) has an
`errorResponse` body whose `code` field equals the HTTP status the response is sent with;
and a response with an `errorResponse` body is a failing one, with that same agreement. -/
theorem error_body_code_eq_status {σ : Type} (ent : EntClient σ)
    (openAIService : OpenAIService) (req : Request) (w : World σ) :
    ((serve ent openAIService req w).1.status ≠ StatusOK →
      ∃ msg, (serve ent openAIService req w).1.body =
        .error ⟨(serve ent openAIService req w).1.status, msg⟩) ∧
    (∀ e, (serve ent openAIService req w).1.body = .error e →
      e.ErrorCode = (serve ent openAIService req w).1.status ∧
      (serve ent openAIService req w).1.status ≠ StatusOK) := by
  cases req <;>
    simp only [serve, NoRoute, listProjects, getProject, createProject, updateProject,
      getTopPromptsMetricOfProject, listProjectPrompts, listPrompts, getPrompt, createPrompt,
      testPrompt] <;>
    (repeat' split) <;>
    simp [StatusOK, StatusBadRequest, StatusNotFound, StatusInternalServerError]

theorem error_body_code_eq_status_witness :
    ∃ msg, (serve memStore ⟨fun _ _ _ => .ok ⟨"hi"⟩⟩
        (.getProject ⟨[⟨"id", "abc"⟩], .ok (), 0⟩) world0).1.body =
      .error ⟨(serve memStore ⟨fun _ _ _ => .ok ⟨"hi"⟩⟩
        (.getProject ⟨[⟨"id", "abc"⟩], .ok (), 0⟩) world0).1.status, msg⟩ :=
  (error_body_code_eq_status memStore ⟨fun _ _ _ => .ok ⟨"hi"⟩⟩
    (.getProject ⟨[⟨"id", "abc"⟩], .ok (), 0⟩) world0).1 (by decide)

/-- A `Get` of the key just set, no later than the expiration, returns the value set. -/
theorem Cache.Get_Set_self (c : Cache) (now t k : Int) (v : Project) (ttl : Int)
    (h : t ≤ now + ttl) : (c.Set now k v ttl).Get t k = some v := by
  simp [Cache.Set, Cache.Get, List.find?]
  omega

/-- C9: `updateProject` leaves the project cache as it was on every failure.  A body that
does not bind, a missing id and a non-integer id are answered 400 with the whole world
(store, cache, trace) unchanged; a save that returns an error is answered 500 with the
cache unchanged; and whenever the status is not 200 the cache is the one before the
request. -/
theorem updateProject_failure_keeps_cache {σ : Type} (ent : EntClient σ)
    (c : Context updateProjectPayload) (w : World σ) :
    (∀ err, c.Bind = .error err →
      updateProject ent c w =
        (⟨StatusBadRequest, .error ⟨StatusBadRequest, .Error err⟩⟩, w)) ∧
    (∀ payload, c.Bind = .ok payload → Params.Get c.Params "id" = none →
      updateProject ent c w =
        (⟨StatusBadRequest, .error ⟨StatusBadRequest, .text "invalid id"⟩⟩, w)) ∧
    (∀ payload pidStr err, c.Bind = .ok payload → Params.Get c.Params "id" = some pidStr →
      Atoi pidStr = .error err →
      updateProject ent c w =
        (⟨StatusBadRequest, .error ⟨StatusBadRequest, .Error err⟩⟩, w)) ∧
    (∀ payload pidStr pid db err, c.Bind = .ok payload →
      Params.Get c.Params "id" = some pidStr → Atoi pidStr = .ok pid →
      ent.ProjectUpdateOneSave w.db (updateProject.updater pid payload) = (db, .error err) →
      (updateProject ent c w).1 =
        ⟨StatusInternalServerError, .error ⟨StatusInternalServerError, .Error err⟩⟩ ∧
      (updateProject ent c w).1.status = 500 ∧
      (updateProject ent c w).2.ProjectCache = w.ProjectCache) ∧
    ((updateProject ent c w).1.status ≠ StatusOK →
      (updateProject ent c w).2.ProjectCache = w.ProjectCache) := by
  refine ⟨?_, ?_, ?_, ?_, ?_⟩
  · intro err hb
    simp [updateProject, hb]
  · intro payload hb hp
    simp [updateProject, hb, hp]
  · intro payload pidStr err hb hp ha
    simp [updateProject, hb, hp, ha]
  · intro payload pidStr pid db err hb hp ha hs
    simp [updateProject, hb, hp, ha, hs, StatusInternalServerError]
  · unfold updateProject
    (repeat' split) <;> simp [StatusOK]

theorem updateProject_failure_keeps_cache_witness :
    (updateProject memStore ⟨[⟨"id", "7"⟩], .ok noPayload, 0⟩ worldDown).1.status = 500 ∧
    (updateProject memStore ⟨[⟨"id", "7"⟩], .ok noPayload, 0⟩ worldDown).2.ProjectCache =
      worldDown.ProjectCache :=
  ((updateProject_failure_keeps_cache memStore ⟨[⟨"id", "7"⟩], .ok noPayload, 0⟩
    worldDown).2.2.2.1 noPayload "7" 7 worldDown.db (.errorString "connection refused")
    rfl rfl rfl rfl).2

/-- Only `updateProject` writes the project cache. -/
theorem serve_keeps_cache {σ : Type} (ent : EntClient σ) (openAIService : OpenAIService)
    (r : Request) (w : World σ) (h : r.isUpdateProject = false) :
    (serve ent openAIService r w).2.ProjectCache = w.ProjectCache := by
  cases r
  case updateProject c => simp [Request.isUpdateProject] at h
  all_goals
    simp only [serve, NoRoute, listProjects, getProject, createProject,
      getTopPromptsMetricOfProject, listProjectPrompts, listPrompts, getPrompt,
      createPrompt, testPrompt]
    try ((repeat' split) <;> rfl)

/-- Requests other than project updates leave the project cache as it is. -/
theorem serveAll_keeps_cache {σ : Type} (ent : EntClient σ) (openAIService : OpenAIService)
    (rs : List Request) (w : World σ) (h : ∀ r ∈ rs, r.isUpdateProject = false) :
    (serveAll ent openAIService rs w).ProjectCache = w.ProjectCache := by
  induction rs generalizing w with
  | nil => rfl
  | cons r rs ih =>
    simp only [serveAll]
    rw [ih _ (fun x hx => h x (List.mem_cons_of_mem _ hx)),
      serve_keeps_cache ent openAIService r w (h r (List.mem_cons_self _ _))]

/-- C1: for an `updateProject` request whose body binds, whose id is an integer and whose
store save succeeds with project `pj`, the handler responds 200 with `pj`, and after the
save (the store call precedes the cache call in the trace) sets the cache entry of key
`pj.ID` to `pj` with an expiration of 24 hours; so a cache `Get` of that id at any time
from the update until 24 hours later, also after further requests other than project
updates have been served, returns `pj`, the configuration the save returned, and nothing
older. -/
theorem updateProject_refreshes_cache {σ : Type} (ent : EntClient σ)
    (openAIService : OpenAIService)
    (c : Context updateProjectPayload) (w : World σ) (payload : updateProjectPayload)
    (pidStr : String) (pid : Int) (db : σ) (pj : Project)
    (hb : c.Bind = .ok payload) (hp : Params.Get c.Params "id" = some pidStr)
    (ha : Atoi pidStr = .ok pid)
    (hs : ent.ProjectUpdateOneSave w.db (updateProject.updater pid payload) = (db, .ok pj)) :
    (updateProject ent c w).1 = ⟨200, .project pj⟩ ∧
    (updateProject ent c w).2.db = db ∧
    (updateProject ent c w).2.calls = .cacheSet pj.ID pj (24 * 3600 * 10 ^ 9) :: .ent :: w.calls ∧
    (updateProject ent c w).2.ProjectCache =
      w.ProjectCache.Set w.now pj.ID pj (24 * 3600 * 10 ^ 9) ∧
    (∀ t, w.now ≤ t → t < w.now + 24 * 3600 * 10 ^ 9 →
      (updateProject ent c w).2.ProjectCache.Get t pj.ID = some pj) ∧
    (∀ rs : List Request, (∀ r ∈ rs, r.isUpdateProject = false) →
      ∀ t, w.now ≤ t → t < w.now + 24 * 3600 * 10 ^ 9 →
        (serveAll ent openAIService rs (updateProject ent c w).2).ProjectCache.Get t pj.ID =
          some pj) := by
  have hr : updateProject ent c w =
      (⟨StatusOK, .project pj⟩,
        { db := db
          ProjectCache := w.ProjectCache.Set w.now pj.ID pj (Hour * 24)
          now := w.now
          calls := .cacheSet pj.ID pj (Hour * 24) :: .ent :: w.calls }) := by
    simp [updateProject, hb, hp, ha, hs]
  have hh : Hour * 24 = 24 * 3600 * 10 ^ 9 := by decide
  rw [hr, hh]
  refine ⟨rfl, rfl, rfl, rfl, ?_, ?_⟩
  · intro t _ ht
    exact Cache.Get_Set_self _ _ _ _ _ _ (le_of_lt ht)
  · intro rs hrs t _ ht
    rw [serveAll_keeps_cache ent openAIService rs _ hrs]
    exact Cache.Get_Set_self _ _ _ _ _ _ (le_of_lt ht)

theorem updateProject_refreshes_cache_witness :
    (updateProject memStore
      ⟨[⟨"id", "7"⟩], .ok { noPayload with OpenAIModel := some "gpt-4" }, 0⟩ world0).1 =
      ⟨200, .project { project7 with OpenAIModel := "gpt-4" }⟩ ∧
    (updateProject memStore
      ⟨[⟨"id", "7"⟩], .ok { noPayload with OpenAIModel := some "gpt-4" }, 0⟩
        world0).2.ProjectCache.Get 2000 7 = some { project7 with OpenAIModel := "gpt-4" } :=
  have h := updateProject_refreshes_cache memStore echoService
    ⟨[⟨"id", "7"⟩], .ok { noPayload with OpenAIModel := some "gpt-4" }, 0⟩ world0
    { noPayload with OpenAIModel := some "gpt-4" } "7" 7
    { db0 with projects := [{ project7 with OpenAIModel := "gpt-4" }, project42] }
    { project7 with OpenAIModel := "gpt-4" } rfl rfl rfl rfl
  ⟨h.1, h.2.2.2.2.1 2000 (by decide) (by decide)⟩

/-- C5: a request whose id is not a valid integer is answered at once, with the parse
error's message and without touching the store, by every handler that takes an id; but
only `updateProject` answers 400: `getProject`, `getTopPromptsMetricOfProject`,
`listProjectPrompts` and `getPrompt` answer 500, not a 4xx status. -/
theorem non_integer_id_status {σ : Type} (ent : EntClient σ) (w : World σ)
    (ps : List Param) (uid : Int) (idStr : String) (err : error)
    (q : queryPagination) (payload : updateProjectPayload)
    (hp : Params.Get ps "id" = some idStr) (ha : Atoi idStr = .error err) :
    getProject ent (⟨ps, .ok (), uid⟩ : Context Unit) w =
      (⟨500, .error ⟨500, .Error err⟩⟩, w) ∧
    getTopPromptsMetricOfProject ent (⟨ps, .ok (), uid⟩ : Context Unit) w =
      (⟨500, .error ⟨500, .Error err⟩⟩, w) ∧
    listProjectPrompts ent ⟨ps, .ok q, uid⟩ w = (⟨500, .error ⟨500, .Error err⟩⟩, w) ∧
    getPrompt ent (⟨ps, .ok (), uid⟩ : Context Unit) w =
      (⟨500, .error ⟨500, .Error err⟩⟩, w) ∧
    updateProject ent ⟨ps, .ok payload, uid⟩ w = (⟨400, .error ⟨400, .Error err⟩⟩, w) := by
  refine ⟨?_, ?_, ?_, ?_, ?_⟩
  · simp [getProject, hp, ha, StatusInternalServerError]
  · simp [getTopPromptsMetricOfProject, hp, ha, StatusInternalServerError]
  · simp [listProjectPrompts, hp, ha, StatusInternalServerError]
  · simp [getPrompt, hp, ha, StatusInternalServerError]
  · simp [updateProject, hp, ha, StatusBadRequest]

theorem non_integer_id_status_witness :
    Atoi "abc" = .error (.NumError "Atoi" "abc" "invalid syntax") ∧
    (getProject memStore (⟨[⟨"id", "abc"⟩], .ok (), 0⟩ : Context Unit) world0).1.status =
      500 ∧
    (getProject memStore (⟨[⟨"id", "abc"⟩], .ok (), 0⟩ : Context Unit) world0).2 = world0 :=
  have h := (non_integer_id_status memStore world0 [⟨"id", "abc"⟩] 0 "abc"
    (.NumError "Atoi" "abc" "invalid syntax") ⟨10, 100⟩ noPayload rfl rfl).1
  ⟨rfl, congrArg (fun r => r.1.status) h, congrArg (fun r => r.2) h⟩

/-- C3, counterexample: project 42 is disabled and in the store; `testPrompt` under it
calls `openAIService.Chat` with the project and answers 200 with the provider's result
(and 500 when the provider service refuses), so the response is not a 4xx error and the
provider call is made. -/
theorem testPrompt_disabled_project_calls_provider :
    project42.Enabled = false ∧
    DB.ProjectGet world0.db 42 = .ok project42 ∧
    (testPrompt memStore echoService ⟨[], .ok testPayload, 0⟩ world0).1 =
      ⟨200, .chat ⟨"hi"⟩⟩ ∧
    (testPrompt memStore echoService ⟨[], .ok testPayload, 0⟩ world0).2.calls =
      [.chat project42, .ent] ∧
    (testPrompt memStore refusingService ⟨[], .ok testPayload, 0⟩ world0).1 =
      ⟨500, .error ⟨500, .Error (.errorString "project disabled")⟩⟩ ∧
    (testPrompt memStore refusingService ⟨[], .ok testPayload, 0⟩ world0).2.calls =
      [.chat project42, .ent] ∧
    ¬ ((400 ≤ (testPrompt memStore echoService ⟨[], .ok testPayload, 0⟩ world0).1.status ∧
        (testPrompt memStore echoService ⟨[], .ok testPayload, 0⟩ world0).1.status < 500) ∧
       Call.chat project42 ∉
        (testPrompt memStore echoService ⟨[], .ok testPayload, 0⟩ world0).2.calls) := by
  refine ⟨rfl, rfl, rfl, rfl, rfl, rfl, ?_⟩
  decide

/-- C3, amended: `testPrompt` does not consult the enabled flag.  For every project the
store returns for the payload's project id, enabled or not, a request whose body binds
makes one store call and then one call of `openAIService.Chat` with that project, and is
answered 200 with the provider's result when the call succeeds and 500 with the provider's
error when it fails. -/
theorem testPrompt_calls_provider {σ : Type} (ent : EntClient σ)
    (openAIService : OpenAIService) (c : Context createPromptPayload) (w : World σ)
    (payload : createPromptPayload) (pj : Project)
    (hb : c.Bind = .ok payload) (hg : ent.ProjectGet w.db payload.ProjectID = .ok pj) :
    (testPrompt ent openAIService c w).2.calls = .chat pj :: .ent :: w.calls ∧
    (∀ res, openAIService.Chat pj payload.Prompts payload.Variables = .ok res →
      (testPrompt ent openAIService c w).1 = ⟨200, .chat res⟩) ∧
    (∀ err, openAIService.Chat pj payload.Prompts payload.Variables = .error err →
      (testPrompt ent openAIService c w).1 = ⟨500, .error ⟨500, .Error err⟩⟩) := by
  refine ⟨?_, ?_, ?_⟩
  · simp only [testPrompt, hb, hg]
    split <;> rfl
  · intro res hc
    simp [testPrompt, hb, hg, hc, StatusOK]
  · intro err hc
    simp [testPrompt, hb, hg, hc, StatusInternalServerError]

theorem testPrompt_calls_provider_witness :
    project42.Enabled = false ∧
    (testPrompt memStore echoService ⟨[], .ok testPayload, 0⟩ world0).2.calls =
      .chat project42 :: .ent :: world0.calls :=
  ⟨rfl, (testPrompt_calls_provider memStore echoService ⟨[], .ok testPayload, 0⟩ world0
    testPayload project42 rfl rfl).1⟩

/-- C4, counterexample: a login with a matching signature for an address no user has is
answered with status 404, which is neither 401 nor 400. -/
theorem Auth_unknown_user_is_404 :
    (Auth authServices0 memStore db0 loginUnknown).2 =
      some ⟨404, .errorString "ent: user not found"⟩ ∧
    ¬ (∃ e, (Auth authServices0 memStore db0 loginUnknown).2 = some e ∧
        (e.code = 401 ∨ e.code = 400)) := by
  refine ⟨rfl, ?_⟩
  rintro ⟨e, he, h⟩
  have h2 : (Auth authServices0 memStore db0 loginUnknown).2 =
      some ⟨404, .errorString "ent: user not found"⟩ := rfl
  rw [h2] at he
  cases he
  revert h
  decide

/-- C4, amended: a login handled by `Auth` either succeeds with a token and a user, or
fails with status 400, 404 or 500: 400 when verification reports an error or the
signature does not match, 404 when the lookup of the user fails, 500 when signing the
token fails. -/
theorem Auth_status {σ : Type} (svc : AuthServices) (ent : EntClient σ) (db : σ)
    (args : authInput) :
    ((∃ token u, Auth svc ent db args = (⟨token, some u⟩, none)) ∨
      (∃ e, (Auth svc ent db args).2 = some e ∧ (e.code = 400 ∨ e.code = 404 ∨ e.code = 500))) ∧
    (∀ verified err,
      svc.VerifySignature args.Auth.Address args.Auth.Message args.Auth.Signature =
        (verified, some err) →
      (Auth svc ent db args).2 = some ⟨400, err⟩) ∧
    (svc.VerifySignature args.Auth.Address args.Auth.Message args.Auth.Signature =
        (false, none) →
      (Auth svc ent db args).2 = some ⟨400, .errorString "invalid signature"⟩) ∧
    (∀ err,
      svc.VerifySignature args.Auth.Address args.Auth.Message args.Auth.Signature =
        (true, none) →
      ent.UserQueryOnly db (Query.new.Where (.Addr (svc.ToLower args.Auth.Address))) =
        .error err →
      (Auth svc ent db args).2 = some ⟨404, err⟩) ∧
    (∀ u err,
      svc.VerifySignature args.Auth.Address args.Auth.Message args.Auth.Signature =
        (true, none) →
      ent.UserQueryOnly db (Query.new.Where (.Addr (svc.ToLower args.Auth.Address))) =
        .ok u →
      svc.SignJWT u (Hour * 24 * 30) = .error err →
      (Auth svc ent db args).2 = some ⟨500, err⟩) := by
  refine ⟨?_, ?_, ?_, ?_, ?_⟩
  · rcases hv : svc.VerifySignature args.Auth.Address args.Auth.Message args.Auth.Signature
      with ⟨verified, _ | err⟩
    · cases verified
      · simp [Auth, hv, NewGraphQLHttpError, StatusBadRequest]
      · cases hu : ent.UserQueryOnly db
            (Query.new.Where (.Addr (svc.ToLower args.Auth.Address))) with
        | error err => simp [Auth, hv, hu, NewGraphQLHttpError, StatusNotFound]
        | ok u =>
          cases hs : svc.SignJWT u (Hour * 24 * 30) with
          | error err =>
            simp [Auth, hv, hu, hs, NewGraphQLHttpError, StatusInternalServerError]
          | ok token => simp [Auth, hv, hu, hs]
    · simp [Auth, hv, NewGraphQLHttpError, StatusBadRequest]
  · intro verified err hv
    simp [Auth, hv, NewGraphQLHttpError, StatusBadRequest]
  · intro hv
    simp [Auth, hv, NewGraphQLHttpError, StatusBadRequest]
  · intro err hv hu
    simp [Auth, hv, hu, NewGraphQLHttpError, StatusNotFound]
  · intro u err hv hu hs
    simp [Auth, hv, hu, hs, NewGraphQLHttpError, StatusInternalServerError]

theorem Auth_status_witness :
    (Auth authServices0 memStore db0 loginUnknown).2 =
      some ⟨404, .errorString "ent: user not found"⟩ :=
  (Auth_status authServices0 memStore db0 loginUnknown).2.2.2.1
    (.errorString "ent: user not found") rfl rfl

/-- C8: `Auth` succeeds exactly when `VerifySignature` returns `(true, no error)`, the
lookup of the user by the lower-cased address returns a user, and `SignJWT` succeeds for
that user with a lifetime of 30 days; the result then carries the token `SignJWT` produced
and that user.  In every other case the returned token is empty; a well-formed signature
that does not match (`(false, no error)`) gives the 400 error "invalid signature".  On the
modelled store the lookup returns a user exactly when one user, and no other, has the
address. -/
theorem Auth_token_iff {σ : Type} (svc : AuthServices) (ent : EntClient σ) (db : σ)
    (args : authInput) :
    ((Auth svc ent db args).2 = none ↔
      ∃ u token,
        svc.VerifySignature args.Auth.Address args.Auth.Message args.Auth.Signature =
          (true, none) ∧
        ent.UserQueryOnly db (Query.new.Where (.Addr (svc.ToLower args.Auth.Address))) =
          .ok u ∧
        svc.SignJWT u (30 * 24 * 3600 * 10 ^ 9) = .ok token) ∧
    (∀ u token,
      svc.VerifySignature args.Auth.Address args.Auth.Message args.Auth.Signature =
        (true, none) →
      ent.UserQueryOnly db (Query.new.Where (.Addr (svc.ToLower args.Auth.Address))) =
        .ok u →
      svc.SignJWT u (30 * 24 * 3600 * 10 ^ 9) = .ok token →
      Auth svc ent db args = (⟨token, some u⟩, none)) ∧
    ((Auth svc ent db args).2 ≠ none → (Auth svc ent db args).1.Token = "") ∧
    (svc.VerifySignature args.Auth.Address args.Auth.Message args.Auth.Signature =
        (false, none) →
      Auth svc ent db args =
        (⟨"", none⟩, some ⟨400, .errorString "invalid signature"⟩)) ∧
    (∀ (d : DB) (v : String) (u : User), d.unavailable = none →
      (memStore.UserQueryOnly d (Query.new.Where (.Addr v)) = .ok u ↔
        d.users.filter (fun x => decide (x.Addr = v)) = [u])) := by
  have hh : Hour * 24 * 30 = 2592000000000000 := by decide
  have hh2 : (30 * 24 * 3600 * 10 ^ 9 : Int) = 2592000000000000 := by decide
  refine ⟨?_, ?_, ?_, ?_, ?_⟩
  · rcases hv : svc.VerifySignature args.Auth.Address args.Auth.Message args.Auth.Signature
      with ⟨verified, _ | err⟩
    · cases verified
      · simp [Auth, hv]
      · cases hu : ent.UserQueryOnly db
            (Query.new.Where (.Addr (svc.ToLower args.Auth.Address))) with
        | error err => simp [Auth, hv, hu]
        | ok u =>
          cases hs : svc.SignJWT u (Hour * 24 * 30) with
          | error err =>
            have hs2 := hs
            rw [hh] at hs2
            simp [Auth, hv, hu, hs, hs2]
          | ok token =>
            have hs2 := hs
            rw [hh] at hs2
            simp [Auth, hv, hu, hs, hs2]
    · simp [Auth, hv]
  · intro u token hv hu hs
    rw [hh2, ← hh] at hs
    simp [Auth, hv, hu, hs]
  · rcases hv : svc.VerifySignature args.Auth.Address args.Auth.Message args.Auth.Signature
      with ⟨verified, _ | err⟩
    · cases verified
      · simp [Auth, hv, authResponse.Token]
      · cases hu : ent.UserQueryOnly db
            (Query.new.Where (.Addr (svc.ToLower args.Auth.Address))) with
        | error err => simp [Auth, hv, hu, authResponse.Token]
        | ok u =>
          cases hs : svc.SignJWT u (Hour * 24 * 30) with
          | error err => simp [Auth, hv, hu, hs, authResponse.Token]
          | ok token => simp [Auth, hv, hu, hs]
    · simp [Auth, hv, authResponse.Token]
  · intro hv
    simp [Auth, hv, NewGraphQLHttpError, StatusBadRequest]
  · intro d v u hd
    simp only [memStore, DB.UserQueryOnly, hd, Query.Where, Query.new, List.nil_append,
      List.all_cons, List.all_nil, Bool.and_true, user.Predicate.holds]
    generalize List.filter (fun x => decide (x.Addr = v)) d.users = l
    rcases l with _ | ⟨a, _ | ⟨b, t⟩⟩ <;> simp

theorem Auth_token_iff_witness :
    Auth authServices0 memStore db0 loginKnown =
      (⟨"jwt30d:0xabc", some ⟨1, "0xabc"⟩⟩, none) :=
  (Auth_token_iff authServices0 memStore db0 loginKnown).2.1 ⟨1, "0xabc"⟩ "jwt30d:0xabc"
    rfl rfl rfl

/-- The inner loop returns the count of the first aggregate row of the prompt, or zero. -/
theorem getTopPromptsMetricOfProject.count_eq_find (pc : List PromptCallCount) (id : Int) :
    getTopPromptsMetricOfProject.count pc id =
      match pc.find? (fun r => r.PromptID == id) with
      | some r => r.Count
      | none => 0 := by
  induction pc with
  | nil => rfl
  | cons r rest ih =>
    by_cases h : r.PromptID = id
    · simp [getTopPromptsMetricOfProject.count, List.find?, h]
    · have hb : (r.PromptID == id) = false := by simpa using h
      simp [getTopPromptsMetricOfProject.count, List.find?, h, hb, ih]

/-- A positive limit bounds the length of the result. -/
theorem applyLimit_length_le {α : Type} (nl : Option error) (n : Nat) (hn : 0 < n)
    (rows out : List α)
    (h : applyLimit nl (some (n : Int)) rows = .ok out) : out.length ≤ n := by
  have h0 : ¬ (n : Int) = 0 := by omega
  have h1 : (0 : Int) < n := by omega
  simp only [applyLimit, h0, h1, if_true, if_false] at h
  cases h
  simp

/-- C10: when both store queries of `getTopPromptsMetricOfProject` succeed, with aggregate
rows `pc` and prompts `prompts`, the response is 200 with one entry per returned prompt in
the same order, its `Count` field the number of entries, and each entry's count the count
of the first aggregate row of that prompt, or 0 without such a row.  When every returned
prompt occurs in the aggregate rows (and the prompts are distinct rows), every entry's
count comes from a matching row and there are at most as many entries as aggregate rows,
hence at most 5 when the store honours `Limit(5)`, as the modelled store does. -/
theorem getTopPromptsMetricOfProject_entries {σ β : Type} (ent : EntClient σ)
    (c : Context β) (w : World σ) (pidStr : String) (pid : Int)
    (pc : List PromptCallCount) (prompts : List Prompt)
    (hp : Params.Get c.Params "id" = some pidStr) (ha : Atoi pidStr = .ok pid)
    (hscan : ent.PromptCallGroupScan w.db
      (((Query.new.Where (.HasProjectWith (.ID pid))).Where
        (.CreateTimeGT (w.now + (-24 * 7 * Hour)))).Limit 5) = .ok pc)
    (hall : ent.PromptQueryAll w.db
      (Query.new.Where (.IDIn (pc.map (fun r => r.PromptID)))) = .ok prompts) :
    ∃ result : List getTopPromptsMetricOfProjectResponse,
      (getTopPromptsMetricOfProject ent c w).1 =
        ⟨200, .topPrompts ⟨(result.length : Int), result⟩⟩ ∧
      result.length = prompts.length ∧
      result.map (fun e => e.Prompt) = prompts ∧
      (∀ e ∈ result, e.Count =
        match pc.find? (fun r => r.PromptID == e.Prompt.ID) with
        | some r => r.Count
        | none => 0) ∧
      ((∀ p ∈ prompts, p.ID ∈ pc.map (fun r => r.PromptID)) →
        (prompts.map (fun p => p.ID)).Nodup →
        (∀ e ∈ result, ∃ r ∈ pc, r.PromptID = e.Prompt.ID ∧ e.Count = r.Count) ∧
        result.length ≤ pc.length ∧
        (pc.length ≤ 5 → result.length ≤ 5)) ∧
      (∀ (d : DB) (q : Query promptcall.Predicate) (rows : List PromptCallCount),
        memStore.PromptCallGroupScan d (q.Limit 5) = .ok rows → rows.length ≤ 5) := by
  refine ⟨prompts.map (fun p => ⟨p, getTopPromptsMetricOfProject.count pc p.ID⟩),
    ?_, ?_, ?_, ?_, ?_, ?_⟩
  · simp only [getTopPromptsMetricOfProject, hp, ha, hscan, hall]
    rfl
  · simp
  · simp [List.map_map, Function.comp_def]
  · intro e he
    obtain ⟨p, _, rfl⟩ := List.mem_map.1 he
    exact getTopPromptsMetricOfProject.count_eq_find pc p.ID
  · intro hsub hnd
    have hlen : prompts.length ≤ pc.length := by
      have h1 : (prompts.map (fun p => p.ID)) ⊆ pc.map (fun r => r.PromptID) := by
        intro x hx
        obtain ⟨p, hpm, rfl⟩ := List.mem_map.1 hx
        exact hsub p hpm
      have h2 := (List.Nodup.subperm hnd h1).length_le
      simpa using h2
    refine ⟨?_, ?_, ?_⟩
    · intro e he
      obtain ⟨p, hpm, rfl⟩ := List.mem_map.1 he
      obtain ⟨r, hr, hid⟩ := List.mem_map.1 (hsub p hpm)
      have hfind := getTopPromptsMetricOfProject.count_eq_find pc p.ID
      cases hf : pc.find? (fun r => r.PromptID == p.ID) with
      | none =>
        have := List.find?_eq_none.1 hf r hr
        simp [hid] at this
      | some r0 =>
        rw [hf] at hfind
        refine ⟨r0, List.mem_of_find?_eq_some hf, ?_, hfind⟩
        have := List.find?_some hf
        simpa using this
    · simpa using hlen
    · intro h5
      simp only [List.length_map]
      omega
  · intro d q rows h
    simp only [memStore, DB.PromptCallGroupScan, Query.Limit] at h
    split at h
    · cases h
    · exact applyLimit_length_le _ 5 (by decide) _ _ h

theorem getTopPromptsMetricOfProject_entries_witness :
    ∃ result : List getTopPromptsMetricOfProjectResponse,
      (getTopPromptsMetricOfProject memStore (⟨[⟨"id", "7"⟩], .ok (), 0⟩ : Context Unit)
        world0).1 = ⟨200, .topPrompts ⟨(result.length : Int), result⟩⟩ ∧
      result.length = 2 ∧ result.length ≤ 5 :=
  have h := getTopPromptsMetricOfProject_entries memStore
    (⟨[⟨"id", "7"⟩], .ok (), 0⟩ : Context Unit) world0 "7" 7 [⟨3, 1⟩, ⟨5, 2⟩]
    [prompt3, prompt5] rfl rfl rfl rfl
  h.imp fun _ hr => ⟨hr.1, hr.2.1, (hr.2.2.2.2.1 (by decide) (by decide)).2.2 (by decide)⟩

/-- The updater `updateProject` saves carries exactly the fields of the payload. -/
theorem updateProject.updater_eq (pid : Int) (payload : updateProjectPayload) :
    updateProject.updater pid payload =
      ⟨pid, payload.Enabled, payload.OpenAIBaseURL, payload.OpenAIModel, payload.OpenAIToken,
        payload.OpenAITemperature, payload.OpenAITopP, payload.OpenAIMaxTokens⟩ := by
  rcases payload with ⟨_ | _, _ | _, _ | _, _ | _, _ | _, _ | _, _ | _⟩ <;> rfl

/-- After the replacement the row found for the identifier is the new row. -/
theorem find?_map_replace (rows : List Project) (pid : Int) (old pj : Project)
    (hid : pj.ID = pid) (h : rows.find? (fun r => r.ID == pid) = some old) :
    (rows.map (fun r => if r.ID = pid then pj else r)).find? (fun r => r.ID == pid) =
      some pj := by
  induction rows with
  | nil => simp at h
  | cons a l ih =>
    by_cases ha : a.ID = pid
    · simp [List.find?, ha, hid]
    · have hb : (a.ID == pid) = false := by simpa using ha
      simp only [List.find?, hb] at h
      simp [List.find?, ha, hb, ih h]

/-- C2: `updateProject` applies exactly the fields present in the payload.  For a stored
project `old` (the row the store returns for the id), the saved and returned project has,
for each of enabled, base URL, model, token, temperature, top-p and max-tokens, the
payload's value when the payload carries the field and the stored value when it does not;
identifier, name and creator are unchanged, the row is the one the store now returns for
the id, and the other rows stay. -/
theorem updateProject_applies_present_fields (c : Context updateProjectPayload)
    (w : World DB) (payload : updateProjectPayload) (pidStr : String) (pid : Int)
    (old : Project)
    (hb : c.Bind = .ok payload) (hp : Params.Get c.Params "id" = some pidStr)
    (ha : Atoi pidStr = .ok pid) (hold : DB.ProjectGet w.db pid = .ok old) :
    ∃ pj : Project,
      (updateProject memStore c w).1 = ⟨200, .project pj⟩ ∧
      DB.ProjectGet (updateProject memStore c w).2.db pid = .ok pj ∧
      pj.Enabled = (match payload.Enabled with | some v => v | none => old.Enabled) ∧
      pj.OpenAIBaseURL =
        (match payload.OpenAIBaseURL with | some v => v | none => old.OpenAIBaseURL) ∧
      pj.OpenAIModel =
        (match payload.OpenAIModel with | some v => v | none => old.OpenAIModel) ∧
      pj.OpenAIToken =
        (match payload.OpenAIToken with | some v => v | none => old.OpenAIToken) ∧
      pj.OpenAITemperature =
        (match payload.OpenAITemperature with | some v => v | none => old.OpenAITemperature) ∧
      pj.OpenAITopP =
        (match payload.OpenAITopP with | some v => v | none => old.OpenAITopP) ∧
      pj.OpenAIMaxTokens =
        (match payload.OpenAIMaxTokens with | some v => v | none => old.OpenAIMaxTokens) ∧
      pj.ID = old.ID ∧ pj.Name = old.Name ∧ pj.CreatorID = old.CreatorID ∧
      (∀ r ∈ w.db.projects, r.ID ≠ pid → r ∈ (updateProject memStore c w).2.db.projects) ∧
      (updateProject memStore c w).2.db.projects.length = w.db.projects.length := by
  have hav : w.db.unavailable = none := by
    cases hu : w.db.unavailable with
    | none => rfl
    | some e => simp [DB.ProjectGet, hu] at hold
  have hfind : w.db.projects.find? (fun r => r.ID == pid) = some old := by
    simp only [DB.ProjectGet, hav] at hold
    cases hf : w.db.projects.find? (fun r => r.ID == pid) with
    | none => simp [hf] at hold
    | some x =>
      simp only [hf] at hold
      cases hold
      rfl
  have hid : old.ID = pid := by simpa using List.find?_some hfind
  have hu := updateProject.updater_eq pid payload
  have hres : updateProject memStore c w =
      (⟨StatusOK, .project ((updateProject.updater pid payload).apply old)⟩,
        ⟨{ w.db with projects := (w.db.projects.map (fun r =>
              if r.ID = pid then (updateProject.updater pid payload).apply old else r)) },
          w.ProjectCache.Set w.now ((updateProject.updater pid payload).apply old).ID
            ((updateProject.updater pid payload).apply old) (Hour * 24),
          w.now,
          .cacheSet ((updateProject.updater pid payload).apply old).ID
            ((updateProject.updater pid payload).apply old) (Hour * 24) :: .ent :: w.calls⟩) := by
    have hsave : DB.ProjectUpdateOneSave w.db (updateProject.updater pid payload) =
        ({ w.db with projects := (w.db.projects.map (fun r =>
              if r.ID = pid then (updateProject.updater pid payload).apply old else r)) },
          .ok ((updateProject.updater pid payload).apply old)) := by
      simp only [DB.ProjectUpdateOneSave, hav, hu, hfind]
    simp only [updateProject, hb, hp, ha, memStore, hsave]
  refine ⟨(updateProject.updater pid payload).apply old, ?_, ?_, ?_⟩
  · rw [hres]; rfl
  · rw [hres]
    simp only [DB.ProjectGet, hav]
    rw [find?_map_replace w.db.projects pid old _ (by rw [hu]; exact hid) hfind]
  · rw [hres, hu]
    refine ⟨?_, ?_, ?_, ?_, ?_, ?_, ?_, rfl, rfl, rfl, ?_, ?_⟩
    · cases payload.Enabled <;> rfl
    · cases payload.OpenAIBaseURL <;> rfl
    · cases payload.OpenAIModel <;> rfl
    · cases payload.OpenAIToken <;> rfl
    · cases payload.OpenAITemperature <;> rfl
    · cases payload.OpenAITopP <;> rfl
    · cases payload.OpenAIMaxTokens <;> rfl
    · intro r hr hne
      exact List.mem_map.2 ⟨r, hr, by simp [hne]⟩
    · simp

theorem updateProject_applies_present_fields_witness :
    ∃ pj : Project,
      (updateProject memStore
        ⟨[⟨"id", "7"⟩], .ok { noPayload with OpenAIModel := some "gpt-4" }, 0⟩ world0).1 =
        ⟨200, .project pj⟩ ∧
      pj.OpenAIModel = "gpt-4" ∧ pj.Enabled = true ∧ pj.OpenAIToken = "sk-1" :=
  have h := updateProject_applies_present_fields
    ⟨[⟨"id", "7"⟩], .ok { noPayload with OpenAIModel := some "gpt-4" }, 0⟩ world0
    { noPayload with OpenAIModel := some "gpt-4" } "7" 7 project7 rfl rfl rfl rfl
  h.imp fun _ hd => ⟨hd.1, hd.2.2.2.2.1, hd.2.2.1, hd.2.2.2.2.2.1⟩

end PromptPal
